import Mathlib

/-!
Verification of the Protractor sensor driver (`src/Protractor.cpp`).

The driver parses a packed scan response held in a byte buffer
(`_buffer`), exposes typed accessors over it, and encodes outbound
configuration command frames.  We embed the buffer as a total function
`Nat → Nat` whose values are bytes (`< 256`) wherever the C++ type
`uint8_t` guarantees it, wire arithmetic (`int16_t`, `int32_t`,
`uint8_t` narrowing) as `Int`/`Nat` arithmetic with explicit `% 256`
where the C conversion reduces modulo 2^8, and each C++ member function
as a Lean function; a function that mutates the buffer returns the new
buffer explicitly.
-/

namespace Protractor

/-- A scan buffer state: byte value at each index.  The C++ member
`_buffer` is an array of `uint8_t`; theorems that need byte-ness carry
the hypothesis `∀ j, buf j < 256`. -/
abbrev Buf := Nat → Nat

/-- Modelled from the spec: `MAXOBJECTS` is a constant of the missing
header `Protractor.h`; the spec fixes its value to 8. -/
def MAXOBJECTS : Int := 8

/-- Modelled from the spec: `MINDUR` is a constant of the missing header
`Protractor.h`; the spec fixes it to 15 (milliseconds, the sensor's
minimum scan period). -/
def MINDUR : Int := 15

/-- Modelled from the spec: the scan buffer declared in the missing
header has fixed size `1 + 4·MAXOBJECTS` = 33 bytes. -/
def BUFCAPACITY : Nat := 33

/-- The Arduino core `map` function used by the angle accessors:
`(x - in_min) * (out_max - out_min) / (in_max - in_min) + out_min`
over C `long` arithmetic, whose `/` truncates toward zero
(`Int.tdiv`). -/
def map (x lo hi lo2 hi2 : Int) : Int :=
  Int.tdiv ((x - lo) * (hi2 - lo2)) (hi - lo) + lo2

/-- The angle decoding the source applies to a raw angle byte:
`map(raw, 0, 255, 0, 180)` (Protractor.cpp lines 110 and 142). -/
def decode (raw : Nat) : Int :=
  map (raw : Int) 0 255 0 180

/-- Decoder written from the spec's words, for comparison with `decode`:
`degrees = round(raw · 180 / 255)`, rounding to the nearest integer
(`raw·180/255` is never a half-integer, so the tie rule is moot). -/
def roundDecode (raw : Nat) : Int :=
  ((raw * 360 + 255) / 510 : Nat)

/-- `objectCount()`: high nibble of buffer byte 0
(`(int16_t)(_buffer[0] >> 4)`). -/
def objectCount (buf : Buf) : Int :=
  ((buf 0 >>> 4 : Nat) : Int)

/-- `pathCount()`: `(int16_t)(_buffer[0] &= 0b00001111)`.  The compound
assignment `&=` stores the masked value back into `_buffer[0]`, so the
call both returns the low nibble and mutates the buffer; we return the
value together with the new buffer state. -/
def pathCount (buf : Buf) : Int × Buf :=
  let v := buf 0 &&& 15
  ((v : Int), fun j => if j = 0 then v else buf j)

/-- `objectAngle(ob)`: `-1` when `ob >= objectCount() || ob < 0`,
otherwise `map(_buffer[1+4*ob],0,255,0,180)`. -/
def objectAngle (buf : Buf) (ob : Int) : Int :=
  if objectCount buf ≤ ob ∨ ob < 0 then -1
  else decode (buf (1 + 4 * ob).toNat)

/-- `objectVisibility(ob)`: `-1` when `ob >= objectCount() || ob < 0`,
otherwise `_buffer[2+4*ob]`. -/
def objectVisibility (buf : Buf) (ob : Int) : Int :=
  if objectCount buf ≤ ob ∨ ob < 0 then -1
  else ((buf (2 + 4 * ob).toNat : Nat) : Int)

/-- `pathAngle(pa)`: the guard `pa >= pathCount() || pa < 0` evaluates
`pathCount()` first (which mutates byte 0); then `-1` out of range,
otherwise `map(_buffer[3+4*pa],0,255,0,180)` read from the mutated
buffer.  Returns the value together with the buffer state after the
call. -/
def pathAngle (buf : Buf) (pa : Int) : Int × Buf :=
  let pc := (pathCount buf).1
  let buf1 := (pathCount buf).2
  if pc ≤ pa ∨ pa < 0 then (-1, buf1)
  else (decode (buf1 (3 + 4 * pa).toNat), buf1)

/-- `pathVisibility(pa)`: same guard as `pathAngle` (also calling the
mutating `pathCount()`), otherwise `_buffer[4+4*pa]`. -/
def pathVisibility (buf : Buf) (pa : Int) : Int × Buf :=
  let pc := (pathCount buf).1
  let buf1 := (pathCount buf).2
  if pc ≤ pa ∨ pa < 0 then (-1, buf1)
  else (((buf1 (4 + 4 * pa).toNat : Nat) : Int), buf1)

/-- The clamp at the top of `read(int16_t obs)`:
`if(obs > MAXOBJECTS) obs = MAXOBJECTS;` (no lower clamp). -/
def clampObs (obs : Int) : Int :=
  if MAXOBJECTS < obs then MAXOBJECTS else obs

/-- `uint8_t numBytes = 1 + obs*4;` — the `int` value `1 + 4·obs` is
narrowed to `uint8_t`, i.e. reduced modulo 256 (C unsigned
conversion). -/
def numBytes (obs : Int) : Nat :=
  ((1 + 4 * clampObs obs) % 256).toNat

/-- The byte-gathering loop body of `read`: each timely byte from the
transport is stored at `_buffer[i]` and `i` is incremented; `bytes` is
the list of remaining timely bytes, `i` the current store index.
Stops when the byte budget runs out or no further byte arrives before
the inter-byte deadline (i.e. `bytes` is exhausted). -/
def storeBytes (buf : Buf) : List Nat → Nat → Buf
  | [], _ => buf
  | b :: rest, i => storeBytes (fun j => if j = i then b % 256 else buf j) rest (i + 1)

/-- `read(int16_t obs)`: clamps `obs`, requests `numBytes` bytes, then
gathers bytes under the 20 ms inter-byte deadline and returns
`i == 0 ? 0 : 1`.  Real time is abstracted: `delivered` is the sequence
of bytes the transport delivers, each one arriving before the
inter-byte deadline expires; the loop consumes them in order, stopping
after `numBytes` of them.  Returns the boolean result and the buffer
state after the call. -/
def read (obs : Int) (delivered : List Nat) (buf : Buf) : Bool × Buf :=
  let n := numBytes obs
  let recvd := delivered.take n
  (decide (recvd.length ≠ 0), storeBytes buf recvd 0)

/-- `scanTime(int16_t milliSeconds)` as the list of bytes it writes
(`[]` when the command is suppressed).  Branch 1 (values 1..MINDUR-1)
emits the clamped 3-byte frame `{SCANTIME, MINDUR, '\n'}`; branch 2
(values 0..32767) emits `{SCANTIME, low byte, high byte, '\n'}`.
The command tag `SCANTIME` lives in the missing header and is opaque to
the spec, so the tag byte is a parameter. -/
def scanTime (tag : Nat) (milliSeconds : Int) : List Nat :=
  if 1 ≤ milliSeconds ∧ milliSeconds ≤ MINDUR - 1 then
    [tag, MINDUR.toNat, 10]
  else if 0 ≤ milliSeconds ∧ milliSeconds ≤ 32767 then
    [tag, (milliSeconds % 256).toNat, ((Int.tdiv milliSeconds 256) % 256).toNat, 10]
  else []

/-- `setNewI2Caddress(int16_t newAddress)` as the list of bytes it
writes: `{I2CADDR, newAddress, '\n'}` when `2 ≤ newAddress ≤ 127`,
nothing otherwise.  The tag byte is a parameter (opaque constant of the
missing header). -/
def setNewI2Caddress (tag : Nat) (newAddress : Int) : List Nat :=
  if 2 ≤ newAddress ∧ newAddress ≤ 127 then
    [tag, (newAddress % 256).toNat, 10]
  else []

/-- `setNewSerialBaudRate(int32_t newBaudRate)` as the list of bytes it
writes: `{BAUDRATE, b0, b1, b2, '\n'}` (little-endian 24-bit) when
`1200 ≤ newBaudRate ≤ 250000`, nothing otherwise. -/
def setNewSerialBaudRate (tag : Nat) (newBaudRate : Int) : List Nat :=
  if 1200 ≤ newBaudRate ∧ newBaudRate ≤ 250000 then
    [tag, (newBaudRate % 256).toNat, ((Int.tdiv newBaudRate 256) % 256).toNat,
      ((Int.tdiv newBaudRate 65536) % 256).toNat, 10]
  else []

/-! ### Helper lemmas -/

/-- The decoding is truncated division: `map raw 0 255 0 180` equals the
natural-number division `raw * 180 / 255`. -/
theorem decode_eq (raw : Nat) : decode raw = ((raw * 180 / 255 : Nat) : Int) := by
  simp only [decode, map, sub_zero, add_zero]
  rw [Int.ofNat_tdiv]
  push_cast
  ring_nf

/-- Decoded angles are never negative. -/
theorem decode_nonneg (raw : Nat) : 0 ≤ decode raw := by
  rw [decode_eq]
  exact_mod_cast Nat.zero_le _

/-- Decoded angles of byte inputs never exceed 180. -/
theorem decode_le (raw : Nat) (h : raw ≤ 255) : decode raw ≤ 180 := by
  rw [decode_eq]
  have h2 : raw * 180 / 255 ≤ 180 := by
    calc raw * 180 / 255 ≤ 255 * 180 / 255 :=
          Nat.div_le_div_right (Nat.mul_le_mul_right 180 h)
    _ = 180 := by norm_num
  exact_mod_cast h2

/-- The buffer produced by `pathCount` still holds bytes. -/
theorem pathCount_snd_lt (buf : Buf) (hb : ∀ j, buf j < 256) :
    ∀ j, (pathCount buf).2 j < 256 := by
  intro j
  simp only [pathCount]
  split
  · exact lt_of_le_of_lt Nat.and_le_right (by norm_num)
  · exact hb j

/-- The requested byte count is never zero: `1 + 4·obs` is odd, so its
residue modulo 256 is nonzero. -/
theorem numBytes_pos (obs : Int) : 0 < numBytes obs := by
  unfold numBytes clampObs MAXOBJECTS
  split <;> omega

/-! ### Claim theorems -/

/-- C1: false on the code.  `pathCount()` computes the low nibble with
`_buffer[0] &= 0x0F`, which writes the masked value back into the
header byte: on a buffer whose header is `0x21` (2 objects, 1 path),
`objectCount()` returns 2 before the call and 0 after it, so the scan
buffer is not left unchanged. -/
theorem pathCount_corrupts_objectCount :
    objectCount (fun _ => 33) = 2
  ∧ (pathCount (fun _ => 33)).1 = 1
  ∧ objectCount ((pathCount (fun _ => 33)).2) = 0 := by decide

/-- C2 counterexample: on a buffer with one object whose raw angle byte
is 1, `objectAngle(0)` returns 0, while `round(1·180/255) = 1`; the
decoding is not rounding to nearest. -/
theorem decode_not_round :
    objectAngle (fun j => if j = 0 then 16 else 1) 0 = 0
  ∧ roundDecode 1 = 1
  ∧ decode 1 ≠ roundDecode 1 := by decide

/-- C2 amended: for every raw byte value 0..255, the angle decoding
applied by `objectAngle` and `pathAngle` equals `raw * 180 / 255`
truncated (floor division), and never exceeds 180. -/
theorem decode_eq_trunc (raw : Nat) (h : raw ≤ 255) :
    decode raw = ((raw * 180 / 255 : Nat) : Int) ∧ decode raw ≤ 180 :=
  ⟨decode_eq raw, decode_le raw h⟩

/-- Witness for C2 amended at raw byte 100. -/
theorem decode_eq_trunc_witness :
    decode 100 = ((100 * 180 / 255 : Nat) : Int) ∧ decode 100 ≤ 180 :=
  decode_eq_trunc 100 (by decide)

/-- C7: the angle decoding is monotone non-decreasing in the raw
byte. -/
theorem decode_monotone (r1 r2 : Nat) (h12 : r1 ≤ r2) (h2 : r2 ≤ 255) :
    decode r1 ≤ decode r2 := by
  rw [decode_eq, decode_eq]
  exact_mod_cast Nat.div_le_div_right (Nat.mul_le_mul_right 180 h12)

/-- Witness for C7 at raw bytes 3 and 200. -/
theorem decode_monotone_witness : decode 3 ≤ decode 200 :=
  decode_monotone 3 200 (by decide) (by decide)

/-- C8: the decoding maps the extreme raw bytes to the extreme degrees:
`decode 0 = 0` and `decode 255 = 180`. -/
theorem decode_endpoints : decode 0 = 0 ∧ decode 255 = 180 := by decide

/-- C10: every accessor returns the sentinel -1 on a negative index,
for every buffer state (hence independently of any record byte). -/
theorem negative_index_sentinel (buf : Buf) (i : Int) (h : i < 0) :
    objectAngle buf i = -1 ∧ objectVisibility buf i = -1
  ∧ (pathAngle buf i).1 = -1 ∧ (pathVisibility buf i).1 = -1 := by
  refine ⟨?_, ?_, ?_, ?_⟩ <;>
    simp [objectAngle, objectVisibility, pathAngle, pathVisibility, h]

/-- Witness for C10 at index -1 on the all-zero buffer. -/
theorem negative_index_sentinel_witness :
    objectAngle (fun _ => 0) (-1) = -1 ∧ objectVisibility (fun _ => 0) (-1) = -1
  ∧ (pathAngle (fun _ => 0) (-1)).1 = -1 ∧ (pathVisibility (fun _ => 0) (-1)).1 = -1 :=
  negative_index_sentinel (fun _ => 0) (-1) (by decide)

/-- C3: on a byte-valued buffer, an in-range index yields an angle in
[0, 180] and an index at or beyond the count yields the sentinel -1,
for objects (`objectAngle` against `objectCount`) and for paths
(`pathAngle` against `pathCount`). -/
theorem angle_bounds (buf : Buf) (hb : ∀ j, buf j < 256) (i : Int) :
    (0 ≤ i → i < objectCount buf → 0 ≤ objectAngle buf i ∧ objectAngle buf i ≤ 180)
  ∧ (objectCount buf ≤ i → objectAngle buf i = -1)
  ∧ (0 ≤ i → i < (pathCount buf).1 → 0 ≤ (pathAngle buf i).1 ∧ (pathAngle buf i).1 ≤ 180)
  ∧ ((pathCount buf).1 ≤ i → (pathAngle buf i).1 = -1) := by
  refine ⟨?_, ?_, ?_, ?_⟩
  · intro h0 hlt
    simp only [objectAngle]
    rw [if_neg (by omega)]
    exact ⟨decode_nonneg _, decode_le _ (by have := hb (1 + 4 * i).toNat; omega)⟩
  · intro hge
    simp only [objectAngle]
    rw [if_pos (Or.inl hge)]
  · intro h0 hlt
    simp only [pathAngle]
    rw [if_neg (by omega)]
    exact ⟨decode_nonneg _,
      decode_le _ (by have := pathCount_snd_lt buf hb (3 + 4 * i).toNat; omega)⟩
  · intro hge
    simp only [pathAngle]
    rw [if_pos (Or.inl hge)]

/-- Witness for C3 on the buffer with header 0x21 (2 objects, 1 path):
index 0 is in range for objects, index 5 is out of range. -/
theorem angle_bounds_witness :
    (0 ≤ objectAngle (fun _ => 33) 0 ∧ objectAngle (fun _ => 33) 0 ≤ 180)
  ∧ objectAngle (fun _ => 33) 5 = -1 :=
  ⟨(angle_bounds (fun _ => 33) (fun _ => (by decide : (33:Nat) < 256)) 0).1
      (by decide) (by decide),
   (angle_bounds (fun _ => 33) (fun _ => (by decide : (33:Nat) < 256)) 5).2.1
      (by decide)⟩

/-- C4: for every requested object count and every timely-delivered
byte sequence, `read` returns true iff at least one byte arrived
(the requested byte count `1 + 4·obs` is odd, hence never zero after
the `uint8_t` narrowing, so the header slot is always open). -/
theorem read_true_iff (obs : Int) (delivered : List Nat) (buf : Buf) :
    (read obs delivered buf).1 = true ↔ delivered ≠ [] := by
  have hn := numBytes_pos obs
  simp only [read, decide_eq_true_eq, ne_eq, List.length_take]
  constructor
  · intro h heq
    apply h
    rw [heq]
    simp
  · intro h
    have hlen : delivered.length ≠ 0 := fun h0 => h (List.length_eq_zero.mp h0)
    omega

/-- C5: each configuration command emits a frame iff its argument is in
the documented range, and every emitted frame ends with byte 0x0A. -/
theorem config_frames (tag : Nat) (v a b : Int) :
    (scanTime tag v ≠ [] ↔ 0 ≤ v ∧ v ≤ 32767)
  ∧ (setNewI2Caddress tag a ≠ [] ↔ 2 ≤ a ∧ a ≤ 127)
  ∧ (setNewSerialBaudRate tag b ≠ [] ↔ 1200 ≤ b ∧ b ≤ 250000)
  ∧ (scanTime tag v ≠ [] → (scanTime tag v).getLast? = some 10)
  ∧ (setNewI2Caddress tag a ≠ [] → (setNewI2Caddress tag a).getLast? = some 10)
  ∧ (setNewSerialBaudRate tag b ≠ [] → (setNewSerialBaudRate tag b).getLast? = some 10) := by
  unfold scanTime setNewI2Caddress setNewSerialBaudRate MINDUR
  refine ⟨?_, ?_, ?_, ?_, ?_, ?_⟩ <;> split_ifs <;> simp_all <;> omega

/-- Witness for C5: `scanTime(100)` emits a frame ending in 0x0A,
`setNewI2Caddress(200)` emits nothing. -/
theorem config_frames_witness :
    scanTime 1 100 ≠ []
  ∧ (scanTime 1 100).getLast? = some 10
  ∧ setNewI2Caddress 1 200 = [] := by
  have h := config_frames 1 100 200 9600
  have hne : scanTime 1 100 ≠ [] := h.1.mpr (by decide)
  refine ⟨hne, h.2.2.2.1 hne, ?_⟩
  by_contra hcontra
  exact absurd (h.2.1.mp hcontra) (by decide)

/-- C6: for `MINDUR ≤ v ≤ 32767`, `scanTime(v)` emits the 4-byte frame
`{tag, v mod 256, v div 256, 0x0A}` and reassembling the two payload
bytes little-endian recovers `v`. -/
theorem scanTime_roundtrip (tag : Nat) (v : Int) (h1 : MINDUR ≤ v) (h2 : v ≤ 32767) :
    scanTime tag v = [tag, (v % 256).toNat, ((Int.tdiv v 256) % 256).toNat, 10]
  ∧ (((v % 256).toNat : Int) + 256 * (((Int.tdiv v 256) % 256).toNat : Int)) = v := by
  have hm : (15:Int) ≤ v := by simpa [MINDUR] using h1
  have htd : Int.tdiv v 256 = v / 256 := Int.tdiv_eq_ediv (by omega) (by norm_num)
  constructor
  · unfold scanTime MINDUR
    rw [if_neg (by omega), if_pos (by omega)]
  · rw [htd]
    rw [Int.toNat_of_nonneg (Int.emod_nonneg v (by norm_num)),
        Int.toNat_of_nonneg (Int.emod_nonneg _ (by norm_num))]
    omega

/-- Witness for C6 at v = 100 with tag byte 0. -/
theorem scanTime_roundtrip_witness :
    scanTime 0 100 = [0, ((100:Int) % 256).toNat, ((Int.tdiv (100:Int) 256) % 256).toNat, 10]
  ∧ ((((100:Int) % 256).toNat : Int) + 256 * (((Int.tdiv (100:Int) 256) % 256).toNat : Int)) = 100 :=
  scanTime_roundtrip 0 100 (by decide) (by decide)

/-- C9: false on the code.  `read(-1)` passes the lower-clamp-free
`obs = -1` into `1 + obs*4`, which narrows to `uint8_t` 253, exceeding
the 33-byte capacity; given 34 timely bytes the loop stores one at
index 33, the first index outside the buffer. -/
theorem read_negative_wraps :
    numBytes (-1) = 253
  ∧ BUFCAPACITY = 33
  ∧ (read (-1) (List.replicate 34 7) (fun _ => 0)).2 33 = 7 := by decide

end Protractor
